import Mathlib

/-!
# PromoPilot causal-policy core: a shallow embedding in Lean 4

This file embeds the estimation and policy-selection core of the PromoPilot
backend (`app/ml/dr_estimator.py`, `app/ml/policy.py`, `app/ml/train.py`,
`app/ml/data_schema.py`) and proves or refutes the frozen claims about it.

Modelling conventions:
* Python floats are modelled as exact rationals (`ℚ`); `np.sqrt` is an external
  numeric routine, modelled as an explicit function argument `sqrt : ℚ → ℚ`
  about which theorems assume only what numpy guarantees (nonnegative inputs
  give nonnegative outputs).
* Python dicts are association lists with `List.lookup`; a `KeyError` is an
  `Except.error`.  Exceptions (`raise ValueError`) are `Except.error` carrying
  the source's message.
* pandas dataframes are lists of rows; model objects (`predict_proba`,
  `predict`) are structures of functions, since model fitting is an external
  capability the spec leaves opaque.
-/

/-- `np.clip(x, lo, hi)` for `lo ≤ hi`: clamp `x` into `[lo, hi]`. -/
def clip (x lo hi : ℚ) : ℚ := max lo (min x hi)

/-- Insert into an `Int` list keeping ascending order. -/
def insertAsc (x : Int) : List Int → List Int
  | [] => [x]
  | y :: ys => if x ≤ y then x :: y :: ys else y :: insertAsc x ys

/-- Python's `sorted(set(xs))` for integers: distinct values in ascending order. -/
def sortedDedup (l : List Int) : List Int := l.eraseDups.foldr insertAsc []

/-- Whether an `Except` result is a success (`Except.isOk` spelled out). -/
def exceptOk : Except String α → Bool
  | .ok _ => true
  | .error _ => false

/-- Effectful map over a list in the `Except String` monad, short-circuiting on
the first error — the order in which a Python `for` loop raises. -/
def mapME (f : α → Except String β) : List α → Except String (List β)
  | [] => .ok []
  | a :: l =>
    match f a with
    | .error e => .error e
    | .ok b =>
      match mapME f l with
      | .error e => .error e
      | .ok bs => .ok (b :: bs)

/-! ## 4.1 Estimate Summary (`dr_estimator._summarize`) -/

/-- `EstimatePoint` from `dr_estimator.py`: a point estimate with a 95%
normal-approximation confidence interval and the sample size. -/
structure EstimatePoint where
  mean : ℚ
  ci_low : ℚ
  ci_high : ℚ
  n : Nat
  deriving Repr, DecidableEq

/-- `dr_estimator._summarize`: mean plus a 95% CI.  `np.mean` is the arithmetic
mean, `np.std(·, ddof=1)` is `sqrt(Σ(x-mean)²/(n-1))`, the standard error is
`std / sqrt(n)` and the margin `1.96·se`.  An empty vector raises. -/
def summarize (sqrt : ℚ → ℚ) (values : List ℚ) : Except String EstimatePoint :=
  if values = [] then .error "Cannot summarize an empty vector"
  else
    let n : ℚ := values.length
    let mean := values.sum / n
    if values.length = 1 then .ok ⟨mean, mean, mean, 1⟩
    else
      let var := (values.map fun x => (x - mean) ^ 2).sum / (n - 1)
      let se := sqrt var / sqrt n
      let margin := (196 / 100 : ℚ) * se
      .ok ⟨mean, mean - margin, mean + margin, values.length⟩

/-- The margin `summarize` uses in the `n ≥ 2` branch. -/
def summarizeMargin (sqrt : ℚ → ℚ) (values : List ℚ) : ℚ :=
  let n : ℚ := values.length
  let mean := values.sum / n
  (196 / 100 : ℚ) * (sqrt ((values.map fun x => (x - mean) ^ 2).sum / (n - 1)) / sqrt n)

/-- Total core of `summarize` on non-empty input (used to state closed forms). -/
def summarizeTotal (sqrt : ℚ → ℚ) (values : List ℚ) : EstimatePoint :=
  let n : ℚ := values.length
  let mean := values.sum / n
  if values.length = 1 then ⟨mean, mean, mean, 1⟩
  else
    let margin := summarizeMargin sqrt values
    ⟨mean, mean - margin, mean + margin, values.length⟩

/-! ## 4.3 Doubly-Robust Estimator (`dr_estimator.compute_dr_scores`)

A dataframe row, restricted to what `compute_dr_scores` reads: the feature
columns (an opaque value of type `φ`, only ever passed to the fitted models),
the `policy_level` treatment column cast to int, and the value of the chosen
outcome column cast to float. -/

structure Row (φ : Type) where
  features : φ
  treatment : Int
  outcome : ℚ

/-- A fitted propensity pipeline as `compute_dr_scores` consumes it:
`classes_` lists the treatment classes seen at fit time, and
`predict_proba r c` is the probability column for class `c` at row `r`
(the matrix `predict_proba(feature_df)` read through `class_to_index`). -/
structure PropensityModel (φ : Type) where
  classes_ : List Int
  predict_proba : φ → Int → ℚ

/-- A fitted outcome pipeline: `predict f t` is the prediction on features `f`
with the treatment column forced to `t` (`_predict_mu_for_treatment`). -/
structure OutcomeModel (φ : Type) where
  predict : φ → Int → ℚ

/-- `dr_estimator.compute_dr_scores`: per requested level `t` (sorted, deduped),
check `t` is a known propensity class, clip the propensity column into
`[min_propensity, 1.0]`, predict the counterfactual outcome `mu_t`, and form
the doubly-robust pseudo-outcome
`mu_t + (1[treatment = t] / p_t) * (outcome - mu_t)` per row. -/
def compute_dr_scores (rows : List (Row φ)) (propensity_model : PropensityModel φ)
    (outcome_model : OutcomeModel φ) (treatment_levels : List Int)
    (min_propensity : ℚ := 1 / 50) : Except String (List (Int × List ℚ)) :=
  mapME (fun t =>
    if t ∈ propensity_model.classes_ then
      .ok (t, rows.map fun r =>
        let p_t := clip (propensity_model.predict_proba r.features t) min_propensity 1
        let mu_t := outcome_model.predict r.features t
        let is_t : ℚ := if r.treatment = t then 1 else 0
        mu_t + (is_t / p_t) * (r.outcome - mu_t))
    else .error ("Propensity model has no class for treatment " ++ toString t))
    (sortedDedup treatment_levels)

/-! ## 4.2 Segment Partitioner and 4.4 Naive Estimator -/

/-- `data_schema.SEGMENT_COLUMNS`: segmentation name → backing column. -/
def SEGMENT_COLUMNS : List (String × String) :=
  [("none", "__all__"), ("device_tier", "device_tier"),
   ("prompt_risk", "prompt_risk"), ("task_domain", "task_domain")]

/-- Insert a string into a list keeping ascending (code-point) order. -/
def insertStr (x : String) : List String → List String
  | [] => [x]
  | y :: ys => if x ≤ y then x :: y :: ys else y :: insertStr x ys

/-- Python's `sorted` on strings. -/
def sortStrs (l : List String) : List String := l.foldr insertStr []

/-- A dataframe row as the naive estimator and the partitioner read it:
treatment, the chosen outcome column, and an accessor for the segmentation
columns (`none` models a pandas null, otherwise the string-cast cell). -/
structure NRow where
  treatment : Int
  outcome : ℚ
  segOf : String → Option String

/-- `dr_estimator._segment_masks`: one boolean mask (parallel to the row list)
per segment.  `"none"` yields the single all-true mask `"all"`; a named
segmentation fails on unknown names or null cells, otherwise yields one mask
per distinct string value, keyed and sorted by that value. -/
def segmentMasks (rows : List NRow) (segment_by : String) :
    Except String (List (String × List Bool)) :=
  match SEGMENT_COLUMNS.lookup segment_by with
  | none => .error ("Unsupported segment_by value: " ++ segment_by)
  | some col =>
    if segment_by = "none" then .ok [("all", rows.map fun _ => true)]
    else if rows.any fun r => (r.segOf col).isNone then
      .error ("Segment column '" ++ col ++ "' contains null values")
    else
      let vals := sortStrs (rows.filterMap (fun r => r.segOf col)).eraseDups
      .ok (vals.map fun v => (v, rows.map fun r => r.segOf col == some v))

/-- `df.loc[mask]`: keep the rows whose mask bit is true. -/
def maskFilter (rows : List NRow) (mask : List Bool) : List NRow :=
  ((rows.zip mask).filter fun p => p.2).map Prod.fst

/-- `df.loc[df[TREATMENT_COL] == t, outcome_col]`: observed outcomes of the
rows that actually received treatment `t`. -/
def treatmentOutcomes (rows : List NRow) (t : Int) : List ℚ :=
  (rows.filter fun r => r.treatment = t).map (·.outcome)

/-- The per-(segment, treatment) body of `estimate_naive_dose_response`:
in-segment observed outcomes, the population-wide fallback when the segment
has none, a failure when even the fallback is empty, else the summary. -/
def naivePoint (sqrt : ℚ → ℚ) (rows segRows : List NRow) (t : Int) :
    Except String (Int × EstimatePoint) :=
  let observed := treatmentOutcomes segRows t
  let values := if observed = [] then treatmentOutcomes rows t else observed
  if values = [] then
    .error ("No observed rows for treatment " ++ toString t ++
      "; cannot compute naive estimate")
  else
    match summarize sqrt values with
    | .ok p => .ok (t, p)
    | .error e => .error e

/-- The per-segment loop body of `estimate_naive_dose_response`. -/
def naiveSegment (sqrt : ℚ → ℚ) (rows : List NRow) (all_treatments : List Int)
    (sm : String × List Bool) : Except String (String × List (Int × EstimatePoint)) :=
  match mapME (naivePoint sqrt rows (maskFilter rows sm.2)) all_treatments with
  | .error e => .error e
  | .ok pts => .ok (sm.1, pts)

/-- `dr_estimator.estimate_naive_dose_response`: per segment and per (sorted,
deduped) level, summarize the in-segment observed outcomes, falling back to
the population-wide observed outcomes when the segment has none, and failing
when even those are empty. -/
def estimate_naive_dose_response (sqrt : ℚ → ℚ) (rows : List NRow)
    (segment_by : String) (treatment_levels : List Int) :
    Except String (List (String × List (Int × EstimatePoint))) :=
  match segmentMasks rows segment_by with
  | .error e => .error e
  | .ok masks =>
    mapME (naiveSegment sqrt rows (sortedDedup treatment_levels)) masks

/-! ## 4.5 Dose-Response Combiner (`dr_estimator.combine_dose_responses`) -/

/-- The estimator output shape: segment → treatment → summary (summaries kept
abstract as `σ`), nested under a method key. -/
abbrev MethodMap (σ : Type) := List (String × List (String × List (Int × σ)))

/-- The combined table: method → segment → treatment → outcome name → summary. -/
abbrev CombinedMap (σ : Type) := List (String × List (String × List (Int × List (String × σ))))

/-- The triple dict indexing `net_value_by_method[method][segment][treatment]`;
a missing key is a Python `KeyError`. -/
def netLookup (net : MethodMap σ) (method segment : String) (t : Int) : Except String σ :=
  match net.lookup method with
  | none => .error ("KeyError: " ++ method)
  | some segs =>
    match segs.lookup segment with
    | none => .error ("KeyError: " ++ segment)
    | some ts =>
      match ts.lookup t with
      | none => .error ("KeyError: " ++ toString t)
      | some v => .ok v

/-- `dr_estimator.combine_dose_responses`: walk the bookings mapping and pair
each summary with the corresponding net_value summary under the outcome keys
`"bookings"` and `"net_value"`. -/
def combine_dose_responses (bookings_by_method net_value_by_method : MethodMap σ) :
    Except String (CombinedMap σ) :=
  mapME (fun mp =>
    match mapME (fun sp =>
        match mapME (fun tp =>
            match netLookup net_value_by_method mp.1 sp.1 tp.1 with
            | .error e => .error e
            | .ok nv => .ok (tp.1, [("bookings", tp.2), ("net_value", nv)])) sp.2 with
        | .error e => .error e
        | .ok ts => .ok (sp.1, ts)) mp.2 with
    | .error e => .error e
    | .ok segs => .ok (mp.1, segs)) bookings_by_method

/-- The triple dict lookup into a raw estimator mapping. -/
def rawLookup (mm : MethodMap σ) (method segment : String) (t : Int) : Option σ :=
  (mm.lookup method).bind fun segs =>
    (segs.lookup segment).bind fun ts => ts.lookup t

/-- The triple dict lookup into a combined table. -/
def combinedLookup (out : CombinedMap σ) (method segment : String) (t : Int) :
    Option (List (String × σ)) :=
  (out.lookup method).bind fun segs =>
    (segs.lookup segment).bind fun ts => ts.lookup t

/-- Whether the combined table has an entry for (method, segment, treatment,
outcome). -/
def hasCombo (out : CombinedMap σ) (method segment : String) (t : Int) (outcome : String) : Bool :=
  ((combinedLookup out method segment t).bind fun om => om.lookup outcome).isSome

/-- Whether a raw estimator mapping has an entry for (method, segment, treatment). -/
def hasRawCombo (m : MethodMap σ) (method segment : String) (t : Int) : Bool :=
  (rawLookup m method segment t).isSome

/-! ## 4.7 Policy Recommender (`policy.recommend_policy`)

The artifact's `dose_response.json` as the recommender reads it.  Treatment
keys are `Int` (the JSON string keys that `_as_int_keyed_map` converts back
are serialization glue). -/

/-- Innermost artifact dict: outcome name → estimate summary. -/
abbrev OutcomeMap := List (String × EstimatePoint)

/-- Per-segment method payload: treatment level → outcome map. -/
abbrev TreatmentMap := List (Int × OutcomeMap)

/-- Segment entry: method name (`"naive"`/`"dr"`) → treatment map. -/
abbrev SegmentEntry := List (String × TreatmentMap)

/-- The artifact's baseline dict.  `train.build_artifacts` writes the keys
`name` and `discount_pct`; `recommend_policy` reads `policy_level` with a
default of 2 — optional fields model which keys are present. -/
structure Baseline where
  name : String
  policy_level : Option Int
  discount_pct : Option Int

/-- The parsed `dose_response.json` payload consumed by `recommend_policy`. -/
structure Artifact where
  treatment_levels : List Int
  baseline : Option Baseline
  segmentations : List (String × List (String × SegmentEntry))

/-- `data_schema.SEGMENT_LABEL_PREFIX`. -/
def SEGMENT_LABELS : List (String × String) :=
  [("none", "All"), ("device_tier", "Device"), ("prompt_risk", "Risk"), ("task_domain", "Domain")]

/-- `data_schema.make_segment_label`. -/
def make_segment_label (segment_by value : String) : String :=
  if segment_by = "none" then "All traffic"
  else ((SEGMENT_LABELS.lookup segment_by).getD segment_by) ++ "=" ++ value

/-- Insert a keyed entry into a list keeping ascending key order. -/
def insertByKey (x : String × β) : List (String × β) → List (String × β)
  | [] => [x]
  | y :: ys => if x.1 ≤ y.1 then x :: y :: ys else y :: insertByKey x ys

/-- `policy._sorted_segments`: the single `"all"` entry for the null
segmentation (a `KeyError` if absent), otherwise the entries sorted by
string key. -/
def sortedSegments (segment_by : String) (payload : List (String × SegmentEntry)) :
    Except String (List (String × SegmentEntry)) :=
  if segment_by = "none" then
    match payload.lookup "all" with
    | some e => .ok [("all", e)]
    | none => .error "KeyError: all"
  else .ok (payload.foldr insertByKey [])

/-- `policy._objective_score` composed with `treatment_map[t]`: the objective
outcome's mean at level `t`, when both dict lookups succeed. -/
def objScore (tm : TreatmentMap) (objective : String) (t : Int) : Option ℚ :=
  (tm.lookup t).bind fun om => (om.lookup objective).map (·.mean)

/-- One step of Python's `max(..., key=lambda pair: pair[1])`: keep the current
best unless the new pair's key is strictly greater. -/
def pyMaxStep (best cur : Int × ℚ) : Int × ℚ := if cur.2 > best.2 then cur else best

/-- Python's `max` over a non-empty list of `(level, mean)` pairs keyed by the
mean: the first pair attaining the maximal mean. -/
def pyMax (x : Int × ℚ) (xs : List (Int × ℚ)) : Int × ℚ := xs.foldl pyMaxStep x

/-- Python's `min(levels, key=lambda t: abs(t - b))`: the first level at
minimal absolute distance from `b` (snapping a misconfigured baseline). -/
def nearestLevel (levels : List Int) (b : Int) : Int :=
  match levels with
  | [] => b
  | x :: xs => xs.foldl (fun best cur =>
      if (cur - b).natAbs < (best - b).natAbs then cur else best) x

/-- The floor of a rational, computed by floor division of numerator by
denominator (kernel-reducible, unlike the `FloorRing` instance field). -/
def ratFloor (q : ℚ) : Int := q.num.fdiv q.den

/-- Banker's rounding (Python `round` on ties-to-even). -/
def roundHalfEven (q : ℚ) : Int :=
  let f := ratFloor q
  let r := q - f
  if r < 1 / 2 then f
  else if 1 / 2 < r then f + 1
  else if f % 2 = 0 then f else f + 1

/-- Python's `round(x, 2)`. -/
def pyRound2 (q : ℚ) : ℚ := (roundHalfEven (q * 100) : ℚ) / 100

/-- `policy._to_per_10k`. -/
def to_per_10k (v : ℚ) : ℚ := v * 10000

/-- A dict access `om[key]`, a `KeyError` when absent. -/
def omLookup (om : OutcomeMap) (key : String) : Except String EstimatePoint :=
  match om.lookup key with
  | some p => .ok p
  | none => .error ("KeyError: " ++ key)

/-- A dict access `treatment_map[t]`, a `KeyError` when absent. -/
def tmLookup (tm : TreatmentMap) (t : Int) : Except String OutcomeMap :=
  match tm.lookup t with
  | some om => .ok om
  | none => .error ("KeyError: " ++ toString t)

/-- The four tracked outcomes of a summary dict, in the order the segment
payload reads them. -/
def outcomes4 (om : OutcomeMap) :
    Except String (EstimatePoint × EstimatePoint × EstimatePoint × EstimatePoint) :=
  match omLookup om "task_success" with
  | .error e => .error e
  | .ok a =>
    match omLookup om "safe_value" with
    | .error e => .error e
    | .ok b =>
      match omLookup om "safety_incident" with
      | .error e => .error e
      | .ok c =>
        match omLookup om "latency_ms" with
        | .error e => .error e
        | .ok d => .ok (a, b, c, d)

/-- `delta_vs_baseline` of the recommendation payload. -/
structure DeltaVsBaseline where
  successes_per_10k : ℚ
  safe_value_per_10k : ℚ
  incidents_per_10k : ℚ
  latency_ms : ℚ
  avg_policy_level : ℚ
  deriving Repr, DecidableEq

/-- One entry of the response's `segments` list. -/
structure SegmentRec where
  segment : String
  recommended_policy_level : Int
  expected_successes_per_10k : ℚ
  expected_safe_value_per_10k : ℚ
  expected_incidents_per_10k : ℚ
  expected_latency_ms : ℚ
  delta_vs_baseline : DeltaVsBaseline
  deriving Repr, DecidableEq

/-- One point of the chart payload. -/
structure ChartPoint where
  policy_level : Int
  successes_per_10k : ℚ
  safe_value_per_10k : ℚ
  incidents_per_10k : ℚ
  latency_ms : ℚ
  ci_low : ℚ
  ci_high : ℚ
  deriving Repr, DecidableEq

/-- One entry of the response's `dose_response` list. -/
structure ChartSegment where
  segment : String
  points : List ChartPoint
  deriving Repr, DecidableEq

/-- The response's `baseline` dict. -/
structure BaselineOut where
  name : String
  policy_level : Int
  deriving Repr, DecidableEq

/-- The full `recommend_policy` return value. -/
structure RecResult where
  segments : List SegmentRec
  dose_response : List ChartSegment
  baseline : BaselineOut
  deriving Repr, DecidableEq

/-- The outcomes for which the chart CI is scaled per-10k
(`objective in {"task_success", "safe_value", "safety_incident"}`). -/
def RATE_OBJECTIVES : List String := ["task_success", "safe_value", "safety_incident"]

/-- One chart point: the per-treatment summary, the objective's CI (scaled for
rate outcomes), and the four tracked outcome means. -/
def chartPoint (tm : TreatmentMap) (objective : String) (t : Int) :
    Except String ChartPoint :=
  match tmLookup tm t with
  | .error e => .error e
  | .ok ts =>
    match omLookup ts objective with
    | .error e => .error e
    | .ok objective_ci =>
      match outcomes4 ts with
      | .error e => .error e
      | .ok (su, sv, inc, lat) =>
        let ci_low := if objective ∈ RATE_OBJECTIVES then to_per_10k objective_ci.ci_low
          else objective_ci.ci_low
        let ci_high := if objective ∈ RATE_OBJECTIVES then to_per_10k objective_ci.ci_high
          else objective_ci.ci_high
        .ok { policy_level := t
            , successes_per_10k := pyRound2 (to_per_10k su.mean)
            , safe_value_per_10k := pyRound2 (to_per_10k sv.mean)
            , incidents_per_10k := pyRound2 (to_per_10k inc.mean)
            , latency_ms := pyRound2 lat.mean
            , ci_low := pyRound2 ci_low
            , ci_high := pyRound2 ci_high }

/-- The body of the per-segment loop of `recommend_policy`: score the
candidates on the objective, take Python's `max`, and build the segment
recommendation plus its chart curve. -/
def build_segment_outputs (treatment_levels candidates : List Int) (baseline_level : Int)
    (objective : String) (segment_label : String) (tm : TreatmentMap) :
    Except String (SegmentRec × ChartSegment) :=
  match mapME (fun t =>
      match objScore tm objective t with
      | some m => .ok (t, m)
      | none => .error ("KeyError while scoring treatment " ++ toString t)) candidates with
  | .error e => .error e
  | .ok scored =>
    match scored with
    | [] => .error "max() arg is an empty sequence"
    | s :: rest =>
      let recommended_level := (pyMax s rest).1
      match tmLookup tm recommended_level with
      | .error e => .error e
      | .ok rec_summary =>
        match tmLookup tm baseline_level with
        | .error e => .error e
        | .ok baseline_summary =>
          match outcomes4 rec_summary with
          | .error e => .error e
          | .ok (rsu, rsv, rinc, rlat) =>
            match outcomes4 baseline_summary with
            | .error e => .error e
            | .ok (bsu, bsv, binc, blat) =>
              match mapME (chartPoint tm objective) treatment_levels with
              | .error e => .error e
              | .ok points =>
                .ok ({ segment := segment_label
                     , recommended_policy_level := recommended_level
                     , expected_successes_per_10k := pyRound2 (to_per_10k rsu.mean)
                     , expected_safe_value_per_10k := pyRound2 (to_per_10k rsv.mean)
                     , expected_incidents_per_10k := pyRound2 (to_per_10k rinc.mean)
                     , expected_latency_ms := pyRound2 rlat.mean
                     , delta_vs_baseline :=
                       { successes_per_10k := pyRound2 (to_per_10k (rsu.mean - bsu.mean))
                       , safe_value_per_10k := pyRound2 (to_per_10k (rsv.mean - bsv.mean))
                       , incidents_per_10k := pyRound2 (to_per_10k (rinc.mean - binc.mean))
                       , latency_ms := pyRound2 (rlat.mean - blat.mean)
                       , avg_policy_level := pyRound2 (recommended_level - baseline_level) } },
                    { segment := segment_label, points := points })

/-- `policy.recommend_policy`. -/
def recommend_policy (art : Artifact) (objective : String) (max_policy_level : Int)
    (segment_by : String) (method : String) : Except String RecResult :=
  let treatment_levels := art.treatment_levels
  let candidates := treatment_levels.filter (· ≤ max_policy_level)
  if candidates = [] then
    .error ("No policy levels are <= " ++ toString max_policy_level)
  else
    let baseline_info := art.baseline.getD
      { name := "current_policy", policy_level := some 2, discount_pct := none }
    let raw_baseline := baseline_info.policy_level.getD 2
    let baseline_level := if raw_baseline ∈ treatment_levels then raw_baseline
      else nearestLevel treatment_levels raw_baseline
    match art.segmentations.lookup segment_by with
    | none => .error ("Unsupported segment_by '" ++ segment_by ++ "' in artifacts")
    | some payload =>
      match sortedSegments segment_by payload with
      | .error e => .error e
      | .ok segs =>
        match mapME (fun p =>
            match p.2.lookup method with
            | none => .error ("Method '" ++ method ++ "' missing in artifact for segment " ++ p.1)
            | some tm =>
              build_segment_outputs treatment_levels candidates baseline_level objective
                (make_segment_label segment_by p.1) tm) segs with
        | .error e => .error e
        | .ok outs =>
          .ok { segments := outs.map Prod.fst
              , dose_response := outs.map Prod.snd
              , baseline := { name := baseline_info.name, policy_level := baseline_level } }

/-- The `segments` list of a successful recommendation. -/
def recSegments : Except String RecResult → List SegmentRec
  | .ok r => r.segments
  | .error _ => []

/-- The resolved baseline level of a successful recommendation. -/
def recBaselineLevel : Except String RecResult → Int
  | .ok r => r.baseline.policy_level
  | .error _ => -1

/-! ## 4.6 Artifact Builder (`train.build_artifacts`, `data_schema.validate_dataframe`) -/

/-- `data_schema.CATEGORICAL_FEATURES`. -/
def CATEGORICAL_FEATURES : List String :=
  ["device_tier", "prompt_risk", "task_domain", "region", "connectivity"]

/-- `data_schema.NUMERIC_FEATURES`. -/
def NUMERIC_FEATURES : List String :=
  ["prompt_tokens", "battery_pct", "thermal_headroom", "model_size_b"]

/-- `data_schema.REQUIRED_COLUMNS` (a set; membership is what matters). -/
def REQUIRED_COLUMNS : List String :=
  CATEGORICAL_FEATURES ++ NUMERIC_FEATURES ++
    ["policy_level", "task_success", "safe_value", "safety_incident", "latency_ms"]

/-- A dataframe restricted to what `validate_dataframe` inspects: its column
names, its treatment column, and whether each segmentation column has nulls. -/
structure SchemaDf where
  columns : List String
  treatments : List Int
  segNull : String → Bool

/-- `data_schema.validate_dataframe`: missing required columns, treatment
values outside the configured level set, then null segmentation columns. -/
def validate_dataframe (df : SchemaDf) (levels : List Int) : Except String Unit :=
  let missing := REQUIRED_COLUMNS.filter fun c => ¬ df.columns.contains c
  if missing ≠ [] then .error "Dataset is missing required columns"
  else
    let unexpected := df.treatments.filter fun t => ¬ levels.contains t
    if unexpected ≠ [] then
      .error "Dataset contains treatment levels outside configured levels"
    else
      match (SEGMENT_COLUMNS.filter fun p => p.1 ≠ "none").find? (fun p => df.segNull p.2) with
      | some p => .error ("Segment column '" ++ p.2 ++ "' contains null values")
      | none => .ok ()

/-- The artifact files `build_artifacts` writes, in write order.  The
enclosing directory is created up front (`mkdir`), but every file write
happens after generation, validation, fitting and estimation succeed. -/
def ARTIFACT_FILES : List String :=
  ["demo.parquet", "propensity_model.joblib", "outcome_model.joblib",
   "dose_response.json", "policy_baselines.json", "manifest.json"]

/-- The control flow of `train.build_artifacts` with its effectful phases as
parameters: synthetic-data generation (which itself raises on fewer than two
levels), schema validation, the two external model fits, and the estimation /
combination phase.  The second component is the list of files written. -/
def build_artifacts_run (gen : Except String SchemaDf) (levels : List Int)
    (fitP : SchemaDf → Except String π) (fitO : SchemaDf → Except String ω)
    (estimate : SchemaDf → π → ω → Except String τ) :
    Except String τ × List String :=
  match gen with
  | .error e => (.error e, [])
  | .ok df =>
    match validate_dataframe df levels with
    | .error e => (.error e, [])
    | .ok _ =>
      match fitP df with
      | .error e => (.error e, [])
      | .ok pm =>
        match fitO df with
        | .error e => (.error e, [])
        | .ok om =>
          match estimate df pm om with
          | .error e => (.error e, [])
          | .ok table => (.ok table, ARTIFACT_FILES)

/-- `[a,b,c]` rendered as compact JSON. -/
def encodeIntList (l : List Int) : String :=
  "[" ++ String.intercalate "," (l.map toString) ++ "]"

/-- The canonical (`sort_keys=True`, compact separators) JSON encoding of the
`dose_response_payload` dict of `build_artifacts`, with the `segmentations`
subtree abstracted as its already-encoded JSON.  Keys appear in sorted order:
`artifact_version < baseline < segmentations < treatment_levels`, and inside
the baseline `discount_pct < name` — the literal dict the source builds. -/
def dose_response_payload_json (artifact_version : String) (levels : List Int)
    (segmentations_json : String) : String :=
  "\x7b\"artifact_version\":\"" ++ artifact_version ++
    "\",\"baseline\":\x7b\"discount_pct\":10,\"name\":\"current_policy\"\x7d,\"segmentations\":" ++
    segmentations_json ++ ",\"treatment_levels\":" ++ encodeIntList levels ++ "\x7d"

/-- The canonical JSON string `_sha256_json` hashes into `artifact_hash`:
the `reproducible_hash_payload` dict `{seed, rows, treatment_levels,
dose_response}` with keys sorted.  `seg_json` abstracts the deterministic
estimation pipeline (data generation, fitting and estimation are pure
functions of seed, row count and level set); `artifact_version` defaults to
`date.today().isoformat()`, passed here as `today`.  The manifest's
`created_at_utc` timestamp is written outside this payload and never enters
it.  Equal strings have equal SHA-256 digests, so hash claims are settled at
this pre-image level. -/
def artifact_hash_input (seed rows : Int) (raw_levels : List Int)
    (artifact_version : Option String) (today : String)
    (seg_json : Int → Int → List Int → String) : String :=
  let levels := sortedDedup raw_levels
  let version := artifact_version.getD today
  "\x7b\"dose_response\":" ++
    dose_response_payload_json version levels (seg_json seed rows levels) ++
    ",\"rows\":" ++ toString rows ++ ",\"seed\":" ++ toString seed ++
    ",\"treatment_levels\":" ++ encodeIntList levels ++ "\x7d"

/-! ## Concrete artifacts for the end-to-end and baseline claims -/

/-- A sample estimate point for concrete artifacts. -/
def dummyPoint : EstimatePoint := ⟨1 / 10, 1 / 20, 3 / 20, 100⟩

/-- The outcome keys `_build_segment_payload`/`combine_dose_responses` emit
for every (segment, treatment) cell of a built artifact. -/
def builtOutcomeMap (p : EstimatePoint) : OutcomeMap :=
  [("bookings", p), ("net_value", p)]

/-- The outcome keys `recommend_policy` expects per (segment, treatment) cell. -/
def fullOutcomeMap (p : EstimatePoint) : OutcomeMap :=
  [("task_success", p), ("safe_value", p), ("safety_incident", p), ("latency_ms", p)]

/-- The baseline dict `build_artifacts` embeds in `dose_response.json`:
`{"name": "current_policy", "discount_pct": 10}` — no `policy_level` key. -/
def builderBaseline : Baseline :=
  { name := "current_policy", policy_level := none, discount_pct := some 10 }

/-- The `dose_response.json` shape `build_artifacts` produces for levels
`{0,1,2,3,4}` and the `"none"` segmentation: every cell keyed by the outcomes
`bookings`/`net_value`, under both methods. -/
def builtArtifactC1 : Artifact :=
  { treatment_levels := [0, 1, 2, 3, 4]
  , baseline := some builderBaseline
  , segmentations :=
      [("none", [("all",
        [("naive", [0, 1, 2, 3, 4].map fun t => (t, builtOutcomeMap dummyPoint)),
         ("dr", [0, 1, 2, 3, 4].map fun t => (t, builtOutcomeMap dummyPoint))])])] }

/-- An artifact with the default level set `(0, 5, 10, 15, 20)` of
`train.DEFAULT_TREATMENT_LEVELS`, carrying the builder's baseline dict but
well-formed outcome cells, isolating the baseline-resolution path. -/
def artifactC7 : Artifact :=
  { treatment_levels := [0, 5, 10, 15, 20]
  , baseline := some builderBaseline
  , segmentations :=
      [("none", [("all",
        [("naive", [0, 5, 10, 15, 20].map fun t => (t, fullOutcomeMap dummyPoint))])])] }

/-- A two-level artifact whose two candidate levels have identical objective
means — a tie the recommender must break toward the lower level. -/
def artifactC6 : Artifact :=
  { treatment_levels := [0, 1]
  , baseline := some { name := "current_policy", policy_level := some 0, discount_pct := none }
  , segmentations :=
      [("none", [("all",
        [("naive", [(0, fullOutcomeMap dummyPoint), (1, fullOutcomeMap dummyPoint)])])])] }

/-- A successful recommendation's payload, or a default on error. -/
def recResultOr (d : RecResult) : Except String RecResult → RecResult
  | .ok r => r
  | .error _ => d

/-- An empty recommendation payload (used as the default above). -/
def emptyRecResult : RecResult :=
  { segments := [], dose_response := [], baseline := { name := "", policy_level := 0 } }

theorem mapME_ok_of_forall {f : α → Except String β} {g : α → β} {l : List α}
    (h : ∀ a ∈ l, f a = .ok (g a)) : mapME f l = .ok (l.map g) := by
  induction l with
  | nil => rfl
  | cons a l ih =>
    have ha := h a (List.mem_cons_self a l)
    have hl := ih fun b hb => h b (List.mem_cons_of_mem a hb)
    simp [mapME, ha, hl]

theorem mapME_not_ok_of_exists {f : α → Except String β} {l : List α}
    (h : ∃ a ∈ l, exceptOk (f a) = false) : exceptOk (mapME f l) = false := by
  induction l with
  | nil => simp at h
  | cons a l ih =>
    rcases h with ⟨b, hb, hber⟩
    rcases List.mem_cons.mp hb with rfl | hbl
    · cases hfa : f b with
      | error e => simp [mapME, hfa, exceptOk]
      | ok v => rw [hfa] at hber; simp [exceptOk] at hber
    · cases hfa : f a with
      | error e => simp [mapME, hfa, exceptOk]
      | ok v =>
        have := ih ⟨b, hbl, hber⟩
        cases hml : mapME f l with
        | error e => simp [mapME, hfa, hml, exceptOk]
        | ok vs => rw [hml] at this; simp [exceptOk] at this

theorem mapME_ok_forall₂ {f : α → Except String β} {l : List α} {res : List β}
    (h : mapME f l = .ok res) : List.Forall₂ (fun a b => f a = .ok b) l res := by
  induction l generalizing res with
  | nil => cases h; exact List.Forall₂.nil
  | cons a l ih =>
    cases hfa : f a with
    | error e => simp [mapME, hfa] at h
    | ok v =>
      cases hml : mapME f l with
      | error e => simp [mapME, hfa, hml] at h
      | ok vs =>
        simp [mapME, hfa, hml] at h
        subst h
        exact List.Forall₂.cons hfa (ih hml)

theorem summarizeMargin_nonneg (sqrt : ℚ → ℚ) (hs : ∀ x : ℚ, 0 ≤ x → 0 ≤ sqrt x)
    (values : List ℚ) (hlen : 1 < values.length) : 0 ≤ summarizeMargin sqrt values := by
  unfold summarizeMargin
  have hvar : (0 : ℚ) ≤ (values.map fun x => (x - values.sum / values.length) ^ 2).sum /
      ((values.length : ℚ) - 1) := by
    apply div_nonneg
    · apply List.sum_nonneg
      intro q hq
      rcases List.mem_map.mp hq with ⟨x, _, rfl⟩
      positivity
    · have : (1 : ℚ) ≤ (values.length : ℚ) := by exact_mod_cast Nat.one_le_of_lt hlen
      linarith
  have hn : (0 : ℚ) ≤ (values.length : ℚ) := by positivity
  have h1 := hs _ hvar
  have h2 := hs _ hn
  positivity

/-- `summarize` never fails on a non-empty vector. -/
theorem summarize_ok_of_ne_nil (sqrt : ℚ → ℚ) (values : List ℚ) (hne : values ≠ []) :
    exceptOk (summarize sqrt values) = true := by
  rw [summarize, if_neg hne]
  by_cases h1 : values.length = 1 <;> simp [h1, exceptOk]

/-- C10: For every non-empty score vector, `summarize` returns the arithmetic
mean; with `n = 1` the interval collapses to the mean; with `n > 1` the bounds
are `mean ∓ margin` where the margin is `1.96 · (std ddof=1) / √n`
(`summarizeMargin`); hence `ci_low ≤ mean ≤ ci_high`; and the empty vector
fails (the source raises `ValueError "Cannot summarize an empty vector"`, the
spec's `EmptySampleError`). -/
theorem C10_estimate_summary_contract (sqrt : ℚ → ℚ)
    (hsqrt : ∀ x : ℚ, 0 ≤ x → 0 ≤ sqrt x) (values : List ℚ) :
    (values = [] → summarize sqrt values = .error "Cannot summarize an empty vector") ∧
    (values ≠ [] → exceptOk (summarize sqrt values) = true) ∧
    (∀ p : EstimatePoint, summarize sqrt values = .ok p →
      p.mean = values.sum / values.length ∧
      p.n = values.length ∧
      (values.length = 1 → p.ci_low = p.mean ∧ p.ci_high = p.mean) ∧
      (1 < values.length →
        p.ci_low = p.mean - summarizeMargin sqrt values ∧
        p.ci_high = p.mean + summarizeMargin sqrt values) ∧
      p.ci_low ≤ p.mean ∧ p.mean ≤ p.ci_high) := by
  refine ⟨fun h => by rw [summarize, if_pos h], summarize_ok_of_ne_nil sqrt values, ?_⟩
  intro p hp
  by_cases hne : values = []
  · rw [summarize, if_pos hne] at hp
    exact absurd hp (by simp)
  · rw [summarize, if_neg hne] at hp
    have hlen0 : values.length ≠ 0 := fun h => hne (List.length_eq_zero.mp h)
    by_cases h1 : values.length = 1
    · rw [if_pos h1] at hp
      simp only [Except.ok.injEq] at hp
      subst hp
      exact ⟨rfl, h1.symm, fun _ => ⟨rfl, rfl⟩, fun h => absurd h (by omega), le_refl _, le_refl _⟩
    · rw [if_neg h1] at hp
      simp only [Except.ok.injEq] at hp
      subst hp
      have hlt : 1 < values.length := by omega
      have hm := summarizeMargin_nonneg sqrt hsqrt values hlt
      refine ⟨rfl, rfl, fun h => absurd h h1, fun _ => ⟨?_, ?_⟩, ?_, ?_⟩
      · show _ = _ - summarizeMargin sqrt values
        simp [summarizeMargin]
      · show _ = _ + summarizeMargin sqrt values
        simp [summarizeMargin]
      · show values.sum / (values.length : ℚ) - _ ≤ values.sum / (values.length : ℚ)
        have : summarizeMargin sqrt values =
            (196 / 100 : ℚ) *
              (sqrt ((values.map fun x =>
                  (x - values.sum / (values.length : ℚ)) ^ 2).sum /
                ((values.length : ℚ) - 1)) / sqrt (values.length : ℚ)) := rfl
        rw [← this]
        linarith
      · show values.sum / (values.length : ℚ) ≤ values.sum / (values.length : ℚ) + _
        have : summarizeMargin sqrt values =
            (196 / 100 : ℚ) *
              (sqrt ((values.map fun x =>
                  (x - values.sum / (values.length : ℚ)) ^ 2).sum /
                ((values.length : ℚ) - 1)) / sqrt (values.length : ℚ)) := rfl
        rw [← this]
        linarith

/-- C10 witness: the contract applied at `sqrt = id` and `values = [1, 2]`. -/
theorem C10_witness :
    (∀ x : ℚ, 0 ≤ x → 0 ≤ x) ∧
    (([1, 2] : List ℚ) ≠ [] → exceptOk (summarize (fun x => x) [1, 2]) = true) :=
  ⟨fun _ h => h, (C10_estimate_summary_contract (fun x => x) (fun _ h => h) [1, 2]).2.1⟩

/-- C2: For every dataset, propensity model whose fitted classes cover the
requested levels, outcome model and level set, `compute_dr_scores` maps each
requested level `t` (sorted, deduped) and each row to exactly
`mu_t + 1[treatment = t] / clip(p_t, 0.02, 1.0) * (y - mu_t)`, with the clip
floor defaulting to `1/50 = 0.02`. -/
theorem C2_dr_pseudo_outcome_formula {φ : Type} (rows : List (Row φ))
    (propensity_model : PropensityModel φ) (outcome_model : OutcomeModel φ)
    (treatment_levels : List Int)
    (hcls : ∀ t ∈ sortedDedup treatment_levels, t ∈ propensity_model.classes_) :
    compute_dr_scores rows propensity_model outcome_model treatment_levels =
      .ok ((sortedDedup treatment_levels).map fun t =>
        (t, rows.map fun r =>
          outcome_model.predict r.features t +
            ((if r.treatment = t then (1 : ℚ) else 0) /
              clip (propensity_model.predict_proba r.features t) (1 / 50) 1) *
            (r.outcome - outcome_model.predict r.features t))) := by
  unfold compute_dr_scores
  exact mapME_ok_of_forall fun t ht => by rw [if_pos (hcls t ht)]

/-- C2 witness: the formula at one concrete row, model and level set. -/
theorem C2_witness :
    (∀ t ∈ sortedDedup [1, 0], t ∈ (PropensityModel.mk (φ := Unit) [0, 1, 2]
      (fun _ _ => 1 / 3)).classes_) ∧
    compute_dr_scores [Row.mk () 1 5] (PropensityModel.mk [0, 1, 2] (fun _ _ => 1 / 3))
        (OutcomeModel.mk fun _ t => (t : ℚ)) [1, 0] =
      .ok ((sortedDedup [1, 0]).map fun t =>
        (t, [Row.mk () 1 5].map fun r =>
          (OutcomeModel.mk fun _ t' => (t' : ℚ)).predict r.features t +
            ((if r.treatment = t then (1 : ℚ) else 0) /
              clip ((PropensityModel.mk (φ := Unit) [0, 1, 2]
                (fun _ _ => 1 / 3)).predict_proba r.features t) (1 / 50) 1) *
            (r.outcome - (OutcomeModel.mk fun _ t' => (t' : ℚ)).predict r.features t))) :=
  ⟨by decide, C2_dr_pseudo_outcome_formula _ _ _ _ (by decide)⟩

/-- C3: When the propensity model is uniform over its `k` fitted classes
(covering every requested level, with `1/k` at or above the `0.02` clip floor)
and the outcome model coincides with the data-generating function on every
row, the DR pseudo-outcome at level `t` collapses to the outcome model's
counterfactual prediction at `t` for every row, whatever level the row
actually received. -/
theorem C3_dr_reduction {φ : Type} (rows : List (Row φ))
    (propensity_model : PropensityModel φ) (outcome_model : OutcomeModel φ)
    (treatment_levels : List Int) (k : ℕ)
    (_hk : propensity_model.classes_.length = k)
    (hall : ∀ t ∈ sortedDedup treatment_levels, t ∈ propensity_model.classes_)
    (_huni : ∀ f t, propensity_model.predict_proba f t = 1 / (k : ℚ))
    (_hfloor : (1 / 50 : ℚ) ≤ 1 / (k : ℚ))
    (horacle : ∀ r ∈ rows, r.outcome = outcome_model.predict r.features r.treatment) :
    compute_dr_scores rows propensity_model outcome_model treatment_levels =
      .ok ((sortedDedup treatment_levels).map fun t =>
        (t, rows.map fun r => outcome_model.predict r.features t)) := by
  unfold compute_dr_scores
  refine mapME_ok_of_forall fun t ht => ?_
  rw [if_pos (hall t ht)]
  refine congrArg _ (congrArg _ (List.map_congr_left fun r hr => ?_))
  by_cases hrt : r.treatment = t
  · rw [horacle r hr, hrt]
    simp
  · simp [hrt]

/-- C3 witness: uniform 3-class propensities and an oracle outcome model on
two rows with different assigned levels. -/
theorem C3_witness :
    ((1 / 50 : ℚ) ≤ 1 / ((3 : ℕ) : ℚ)) ∧
    compute_dr_scores [Row.mk () 0 0, Row.mk () 2 2]
        (PropensityModel.mk [0, 1, 2] (fun _ _ => 1 / 3))
        (OutcomeModel.mk fun _ t => (t : ℚ)) [0, 1, 2] =
      .ok ((sortedDedup [0, 1, 2]).map fun t =>
        (t, [Row.mk () 0 0, Row.mk () 2 2].map fun r =>
          (OutcomeModel.mk fun _ t' => (t' : ℚ)).predict r.features t)) :=
  ⟨by norm_num, C3_dr_reduction _ _ _ _ 3 rfl (by decide) (fun _ _ => rfl)
    (by norm_num) (by decide)⟩

/-- C4 counterexample: with `artifact_version` left to its default, two builds
with identical seed, row count and level set but run on different days hash
different payloads — `date.today()` (a wall-clock value) enters the hashed
payload through `dose_response.artifact_version`, so the hash is not a pure
function of seed, row count and level set. -/
theorem C4_counterexample :
    artifact_hash_input 23 3500 [0, 1, 2, 3, 4] none "2025-01-01"
        (fun _ _ _ => "\x7b\x7d") ≠
      artifact_hash_input 23 3500 [0, 1, 2, 3, 4] none "2025-01-02"
        (fun _ _ _ => "\x7b\x7d") := by decide

/-- C4 amended: the hashed payload is the canonical sorted-keys JSON of
`{seed, rows, treatment_levels, dose_response}` and is a pure function of
seed, row count, level set and the resolved `artifact_version`; two builds
agree whenever their resolved versions agree (always when a version is pinned,
and on same-day builds otherwise).  The manifest's `created_at_utc` timestamp
never enters the payload. -/
theorem C4_amended_hash_determinism (seed rows : Int) (raw_levels : List Int)
    (v₁ v₂ : Option String) (today₁ today₂ : String)
    (seg_json : Int → Int → List Int → String)
    (hv : v₁.getD today₁ = v₂.getD today₂) :
    artifact_hash_input seed rows raw_levels v₁ today₁ seg_json =
      artifact_hash_input seed rows raw_levels v₂ today₂ seg_json := by
  unfold artifact_hash_input
  rw [hv]

/-- C4 witness: a pinned version makes same-seed builds hash equal across
different days. -/
theorem C4_witness :
    (some "test-version" : Option String).getD "2025-01-01" =
      (some "test-version" : Option String).getD "2025-01-02" ∧
    artifact_hash_input 23 3500 [0, 1, 2, 3, 4] (some "test-version") "2025-01-01"
        (fun _ _ _ => "\x7b\x7d") =
      artifact_hash_input 23 3500 [0, 1, 2, 3, 4] (some "test-version") "2025-01-02"
        (fun _ _ _ => "\x7b\x7d") :=
  ⟨rfl, C4_amended_hash_determinism 23 3500 [0, 1, 2, 3, 4] _ _ _ _ _ rfl⟩

/-- C9: `build_artifacts` is all-or-nothing over the fallible phases that
precede serialization — if synthetic-data generation, schema validation,
either model fit, or estimation fails, the run errors with no artifact file
written (the write list is empty; only the `mkdir` of the directory happens
up front). -/
theorem C9_build_atomicity {π ω τ : Type} (gen : Except String SchemaDf) (levels : List Int)
    (fitP : SchemaDf → Except String π) (fitO : SchemaDf → Except String ω)
    (estimate : SchemaDf → π → ω → Except String τ)
    (hfail : exceptOk (build_artifacts_run gen levels fitP fitO estimate).1 = false) :
    (build_artifacts_run gen levels fitP fitO estimate).2 = [] := by
  unfold build_artifacts_run at hfail ⊢
  cases gen with
  | error e => rfl
  | ok df =>
    dsimp only at hfail ⊢
    cases hv : validate_dataframe df levels with
    | error e => simp [hv]
    | ok u =>
      simp only [hv] at hfail ⊢
      cases hp : fitP df with
      | error e => simp [hp]
      | ok pm =>
        simp only [hp] at hfail ⊢
        cases ho : fitO df with
        | error e => simp [ho]
        | ok om =>
          simp only [ho] at hfail ⊢
          cases he : estimate df pm om with
          | error e => simp [he]
          | ok table => exact absurd hfail (by simp [he, exceptOk])

/-- C9 witness: a dataset missing every required column fails validation and
the run writes nothing. -/
theorem C9_witness :
    exceptOk (build_artifacts_run (τ := Unit)
        (.ok (SchemaDf.mk [] [] fun _ => false)) [0, 1]
        (fun _ => .ok ()) (fun _ => .ok ()) (fun _ _ _ => .ok ())).1 = false ∧
    (build_artifacts_run (τ := Unit)
        (.ok (SchemaDf.mk [] [] fun _ => false)) [0, 1]
        (fun _ => .ok ()) (fun _ => .ok ()) (fun _ _ _ => .ok ())).2 = [] :=
  ⟨by decide, C9_build_atomicity _ _ _ _ _ (by decide)⟩

/-- C1: the end-to-end flow fails on this codebase.  `train.build_artifacts`
cannot even be imported (`data_schema.py` defines no `BOOKINGS_COL` /
`NET_VALUE_COL`), and the table shape its code would produce keys every cell
by the outcomes `bookings`/`net_value`, while `recommend_policy` scores the
objective `task_success` — the very first candidate lookup is a `KeyError`,
so no recommendation with one `"all"` segment and 5 curve points is returned. -/
theorem C1_end_to_end_fails :
    recommend_policy builtArtifactC1 "task_success" 4 "none" "naive" =
      .error "KeyError while scoring treatment 0" := by rfl

unseal Rat.mul Rat.inv Rat.add Rat.sub in
/-- C7: the baseline pinned at build time never reaches the recommender.  The
build writes `{"name": "current_policy", "discount_pct": 10}`, but
`recommend_policy` reads the key `"policy_level"`, falls back to its default
`2`, and snaps it to the nearest valid level — `0` for the builder's default
level set `(0, 5, 10, 15, 20)` — even though the configured `10` is itself a
valid level. -/
theorem C7_baseline_pin_lost :
    recBaselineLevel (recommend_policy artifactC7 "task_success" 20 "none" "naive") = 0 ∧
    builderBaseline.policy_level = none ∧
    builderBaseline.discount_pct = some 10 ∧
    (10 : Int) ∈ artifactC7.treatment_levels := by
  refine ⟨by decide, rfl, rfl, by decide⟩

/-- C5 counterexample: a combination present only in the `net_value` input
vanishes — with an empty bookings mapping the combiner succeeds and returns
an empty table, dropping the (naive, all, 0, net_value) combination its
second input contains. -/
theorem C5_counterexample :
    combine_dose_responses ([] : MethodMap Unit) [("naive", [("all", [(0, ())])])] =
        .ok [] ∧
    hasRawCombo [("naive", [("all", [(0, ())])])] "naive" "all" 0 = true ∧
    hasCombo ([] : CombinedMap Unit) "naive" "all" 0 "net_value" = false := by
  refine ⟨rfl, by decide, by decide⟩

theorem mapME_cons_ok {f : α → Except String β} {a : α} {l : List α} {res : List β}
    (h : mapME f (a :: l) = .ok res) :
    ∃ b bs, f a = .ok b ∧ mapME f l = .ok bs ∧ res = b :: bs := by
  simp only [mapME] at h
  cases hf : f a with
  | error e => rw [hf] at h; exact absurd h (by simp)
  | ok b =>
    rw [hf] at h
    cases hl : mapME f l with
    | error e => rw [hl] at h; exact absurd h (by simp)
    | ok bs =>
      rw [hl] at h
      simp only [Except.ok.injEq] at h
      exact ⟨b, bs, rfl, rfl, h.symm⟩

theorem mapME_congr {f g : α → Except String β} {l : List α}
    (h : ∀ a ∈ l, f a = g a) : mapME f l = mapME g l := by
  induction l with
  | nil => rfl
  | cons a l ih =>
    simp [mapME, h a (List.mem_cons_self a l),
      ih fun b hb => h b (List.mem_cons_of_mem a hb)]

/-- `mapME` over an association list with a key-preserving body: a successful
run maps every bound key to the transformed value. -/
theorem mapME_assoc_lookup {κ α β : Type} [BEq κ] [LawfulBEq κ]
    (g : κ × α → Except String (κ × β))
    (hg : ∀ k a kb, g (k, a) = .ok kb → kb.1 = k)
    (l : List (κ × α)) (l' : List (κ × β))
    (h : mapME g l = .ok l') (k : κ) (a : α) (ha : l.lookup k = some a) :
    ∃ b, g (k, a) = .ok (k, b) ∧ l'.lookup k = some b := by
  induction l generalizing l' with
  | nil => simp at ha
  | cons p rest ih =>
    obtain ⟨k0, a0⟩ := p
    obtain ⟨b0, rest', hf, hrest, rfl⟩ := mapME_cons_ok h
    obtain ⟨bk0, bv0⟩ := b0
    have hb0 : bk0 = k0 := hg k0 a0 (bk0, bv0) hf
    subst hb0
    by_cases hk : (k == bk0) = true
    · have hkeq : k = bk0 := eq_of_beq hk
      rw [List.lookup, hk] at ha
      simp only [Option.some.injEq] at ha
      subst ha
      subst hkeq
      exact ⟨bv0, hf, by rw [List.lookup, hk]⟩
    · rw [List.lookup, Bool.of_not_eq_true hk] at ha
      obtain ⟨b, hb, hlk⟩ := ih rest' hrest ha
      exact ⟨b, hb, by rw [List.lookup, Bool.of_not_eq_true hk]; exact hlk⟩

/-- C5 amended: completeness holds relative to the bookings input only — for
every (method, segment, treatment) combination bound in the bookings mapping,
a successful `combine_dose_responses` pairs its summary with the net_value
summary under the outcome keys `"bookings"` and `"net_value"` at the same
method/segment/treatment keys (and fails when the net_value mapping lacks the
combination); combinations present only in the net_value mapping are dropped. -/
theorem C5_amended_combiner {σ : Type} (bk nv : MethodMap σ) (out : CombinedMap σ)
    (hok : combine_dose_responses bk nv = .ok out)
    (m s : String) (t : Int) (v : σ) (hv : rawLookup bk m s t = some v) :
    ∃ nvv, netLookup nv m s t = .ok nvv ∧
      combinedLookup out m s t = some [("bookings", v), ("net_value", nvv)] ∧
      hasCombo out m s t "bookings" = true ∧
      hasCombo out m s t "net_value" = true := by
  rw [rawLookup] at hv
  cases hm : bk.lookup m with
  | none => rw [hm] at hv; simp at hv
  | some segs =>
    rw [hm] at hv
    simp only [Option.bind] at hv
    cases hs : segs.lookup s with
    | none => rw [hs] at hv; simp at hv
    | some ts =>
      rw [hs] at hv
      simp only [Option.bind] at hv
      obtain ⟨segs', hseg_ok, hout_m⟩ :=
        mapME_assoc_lookup _
          (fun k a kb h => by
            simp only at h
            split at h
            · exact absurd h (by simp)
            · simp only [Except.ok.injEq] at h; subst h; rfl)
          bk out hok m segs hm
      simp only at hseg_ok
      split at hseg_ok
      · exact absurd hseg_ok (by simp)
      · rename_i segsInner heqSegs
        simp only [Except.ok.injEq, Prod.mk.injEq, true_and] at hseg_ok
        subst hseg_ok
        obtain ⟨ts', hts_ok, hsegs_s⟩ :=
          mapME_assoc_lookup _
            (fun k a kb h => by
              simp only at h
              split at h
              · exact absurd h (by simp)
              · simp only [Except.ok.injEq] at h; subst h; rfl)
            segs segsInner heqSegs s ts hs
        simp only at hts_ok
        split at hts_ok
        · exact absurd hts_ok (by simp)
        · rename_i tsInner heqTs
          simp only [Except.ok.injEq, Prod.mk.injEq, true_and] at hts_ok
          subst hts_ok
          obtain ⟨pv, hp, hts_t⟩ :=
            mapME_assoc_lookup _
              (fun k a kb h => by
                simp only at h
                split at h
                · exact absurd h (by simp)
                · simp only [Except.ok.injEq] at h; subst h; rfl)
              ts tsInner heqTs t v hv
          simp only at hp
          split at hp
          · exact absurd hp (by simp)
          · rename_i nvv heqNet
            simp only [Except.ok.injEq, Prod.mk.injEq, true_and] at hp
            subst hp
            refine ⟨nvv, heqNet, ?_, ?_, ?_⟩
            · simp [combinedLookup, hout_m, hsegs_s, hts_t]
            · simp [hasCombo, combinedLookup, hout_m, hsegs_s, hts_t, List.lookup]
            · simp [hasCombo, combinedLookup, hout_m, hsegs_s, hts_t, List.lookup,
                show ("net_value" == "bookings") = false from by decide]

/-- C5 witness: a singleton bookings table paired with its net_value table. -/
theorem C5_witness :
    ∃ nvv, netLookup [("naive", [("all", [(0, "N")])])] "naive" "all" 0 = .ok nvv ∧
      combinedLookup [("naive", [("all", [(0, [("bookings", "B"), ("net_value", "N")])])])]
        "naive" "all" 0 = some [("bookings", "B"), ("net_value", nvv)] ∧
      hasCombo [("naive", [("all", [(0, [("bookings", "B"), ("net_value", "N")])])])]
        "naive" "all" 0 "bookings" = true ∧
      hasCombo [("naive", [("all", [(0, [("bookings", "B"), ("net_value", "N")])])])]
        "naive" "all" 0 "net_value" = true :=
  C5_amended_combiner [("naive", [("all", [(0, "B")])])] [("naive", [("all", [(0, "N")])])]
    [("naive", [("all", [(0, [("bookings", "B"), ("net_value", "N")])])])]
    (by rfl) "naive" "all" 0 "B" (by rfl)

theorem summarize_eq_total (sqrt : ℚ → ℚ) (values : List ℚ) (hne : values ≠ []) :
    summarize sqrt values = .ok (summarizeTotal sqrt values) := by
  simp only [summarize, summarizeTotal, if_neg hne]
  by_cases h1 : values.length = 1 <;> simp [h1, summarizeMargin]

theorem treatmentOutcomes_mask_nil (rows : List NRow) (mask : List Bool) (t : Int)
    (h : treatmentOutcomes rows t = []) :
    treatmentOutcomes (maskFilter rows mask) t = [] := by
  unfold treatmentOutcomes at h ⊢
  rw [List.map_eq_nil_iff] at h ⊢
  rw [List.filter_eq_nil_iff] at h ⊢
  intro r hr
  refine h r ?_
  unfold maskFilter at hr
  rcases List.mem_map.mp hr with ⟨⟨r', b⟩, hmem, rfl⟩
  exact (List.of_mem_zip (List.mem_of_mem_filter hmem)).1

theorem naivePoint_eq_of_global_ne (sqrt : ℚ → ℚ) (rows segRows : List NRow) (t : Int)
    (hg : treatmentOutcomes rows t ≠ []) :
    naivePoint sqrt rows segRows t = .ok (t, summarizeTotal sqrt
      (if treatmentOutcomes segRows t = [] then treatmentOutcomes rows t
       else treatmentOutcomes segRows t)) := by
  unfold naivePoint
  by_cases hobs : treatmentOutcomes segRows t = []
  · simp [hobs, hg, summarize_eq_total sqrt _ hg]
  · simp [hobs, summarize_eq_total sqrt _ hobs]

theorem naivePoint_err_of_global_nil (sqrt : ℚ → ℚ) (rows segRows : List NRow) (t : Int)
    (hg : treatmentOutcomes rows t = [])
    (hseg : treatmentOutcomes segRows t = []) :
    exceptOk (naivePoint sqrt rows segRows t) = false := by
  unfold naivePoint
  simp [hseg, hg, exceptOk]

/-- C8: Given the partitioner's segments (at least one), the naive estimator
summarizes, for each (segment, treatment), the in-segment observed outcomes of
that treatment, silently substituting the population-wide observed outcomes
when the segment has none (the output type carries no marker distinguishing
the fallback); and it fails — with the `No observed rows` error the spec calls
`NoObservationsError` — exactly when some requested level has no observations
even population-wide. -/
theorem C8_naive_estimator_contract (sqrt : ℚ → ℚ) (rows : List NRow)
    (segment_by : String) (treatment_levels : List Int)
    (masks : List (String × List Bool))
    (hm : segmentMasks rows segment_by = .ok masks) (hne : masks ≠ []) :
    ((∀ t ∈ sortedDedup treatment_levels, treatmentOutcomes rows t ≠ []) →
      estimate_naive_dose_response sqrt rows segment_by treatment_levels =
        .ok (masks.map fun sm => (sm.1, (sortedDedup treatment_levels).map fun t =>
          (t, summarizeTotal sqrt
            (if treatmentOutcomes (maskFilter rows sm.2) t = []
             then treatmentOutcomes rows t
             else treatmentOutcomes (maskFilter rows sm.2) t))))) ∧
    ((∃ t ∈ sortedDedup treatment_levels, treatmentOutcomes rows t = []) →
      exceptOk (estimate_naive_dose_response sqrt rows segment_by treatment_levels) = false) := by
  constructor
  · intro hglob
    simp only [estimate_naive_dose_response, hm]
    refine mapME_ok_of_forall fun sm _ => ?_
    unfold naiveSegment
    rw [mapME_ok_of_forall fun t ht => naivePoint_eq_of_global_ne sqrt rows
      (maskFilter rows sm.2) t (hglob t ht)]
  · rintro ⟨t0, ht0, hempty⟩
    simp only [estimate_naive_dose_response, hm]
    obtain ⟨m0, rest, rfl⟩ : ∃ m0 rest, masks = m0 :: rest := by
      cases masks with
      | nil => exact absurd rfl hne
      | cons a b => exact ⟨a, b, rfl⟩
    apply mapME_not_ok_of_exists
    refine ⟨m0, List.mem_cons_self _ _, ?_⟩
    have hinner : exceptOk (mapME (naivePoint sqrt rows (maskFilter rows m0.2))
        (sortedDedup treatment_levels)) = false :=
      mapME_not_ok_of_exists ⟨t0, ht0, naivePoint_err_of_global_nil sqrt rows
        (maskFilter rows m0.2) t0 hempty
        (treatmentOutcomes_mask_nil rows m0.2 t0 hempty)⟩
    unfold naiveSegment
    cases hres : mapME (naivePoint sqrt rows (maskFilter rows m0.2))
        (sortedDedup treatment_levels) with
    | error e => simp [exceptOk]
    | ok pts => rw [hres] at hinner; simp [exceptOk] at hinner

/-- C8 witness: two rows, both levels observed, the null segmentation. -/
theorem C8_witness :
    estimate_naive_dose_response (fun x => x)
        [NRow.mk 0 1 (fun _ => none), NRow.mk 1 2 (fun _ => none)] "none" [0, 1] =
      .ok ([("all", [true, true])].map fun sm => (sm.1, (sortedDedup [0, 1]).map fun t =>
        (t, summarizeTotal (fun x => x)
          (if treatmentOutcomes (maskFilter
              [NRow.mk 0 1 (fun _ => none), NRow.mk 1 2 (fun _ => none)] sm.2) t = []
           then treatmentOutcomes
              [NRow.mk 0 1 (fun _ => none), NRow.mk 1 2 (fun _ => none)] t
           else treatmentOutcomes (maskFilter
              [NRow.mk 0 1 (fun _ => none), NRow.mk 1 2 (fun _ => none)] sm.2) t)))) :=
  (C8_naive_estimator_contract (fun x => x)
    [NRow.mk 0 1 (fun _ => none), NRow.mk 1 2 (fun _ => none)] "none" [0, 1]
    [("all", [true, true])] (by rfl) (by simp)).1 (by decide)

theorem pyMax_cons (x c : Int × ℚ) (xs : List (Int × ℚ)) :
    pyMax x (c :: xs) = pyMax (pyMaxStep x c) xs := rfl

theorem pyMaxStep_fst_le (x c : Int × ℚ) : x.2 ≤ (pyMaxStep x c).2 := by
  unfold pyMaxStep
  by_cases hc : c.2 > x.2 <;> simp [hc]
  linarith

theorem pyMaxStep_snd_le (x c : Int × ℚ) : c.2 ≤ (pyMaxStep x c).2 := by
  unfold pyMaxStep
  by_cases hc : c.2 > x.2 <;> simp [hc]
  linarith

theorem pyMax_mem (x : Int × ℚ) (xs : List (Int × ℚ)) : pyMax x xs ∈ x :: xs := by
  induction xs generalizing x with
  | nil => exact List.mem_cons_self _ _
  | cons c xs ih =>
    rw [pyMax_cons]
    rcases List.mem_cons.mp (ih (pyMaxStep x c)) with h | h
    · rw [h]
      unfold pyMaxStep
      by_cases hc : c.2 > x.2 <;> simp [hc]
    · exact List.mem_cons_of_mem _ (List.mem_cons_of_mem _ h)

theorem pyMax_le (x : Int × ℚ) (xs : List (Int × ℚ)) :
    ∀ y ∈ x :: xs, y.2 ≤ (pyMax x xs).2 := by
  induction xs generalizing x with
  | nil =>
    intro y hy
    rcases List.mem_cons.mp hy with rfl | h
    · exact le_refl _
    · simp at h
  | cons c xs ih =>
    intro y hy
    rw [pyMax_cons]
    have hstep := ih (pyMaxStep x c) (pyMaxStep x c) (List.mem_cons_self _ _)
    rcases List.mem_cons.mp hy with rfl | hy'
    · exact le_trans (pyMaxStep_fst_le y c) hstep
    · rcases List.mem_cons.mp hy' with rfl | hy''
      · exact le_trans (pyMaxStep_snd_le x y) hstep
      · exact ih (pyMaxStep x c) y (List.mem_cons_of_mem _ hy'')

theorem pyMax_first_of_sorted (x : Int × ℚ) (xs : List (Int × ℚ))
    (hp : (x :: xs).Pairwise (fun a b => a.1 ≤ b.1)) :
    ∀ y ∈ x :: xs, y.2 = (pyMax x xs).2 → (pyMax x xs).1 ≤ y.1 := by
  induction xs generalizing x with
  | nil =>
    intro y hy _
    rcases List.mem_cons.mp hy with rfl | h
    · exact le_refl _
    · simp at h
  | cons c xs ih =>
    intro y hy heq
    rw [pyMax_cons] at heq ⊢
    by_cases hc : c.2 > x.2
    · have hstep : pyMaxStep x c = c := by unfold pyMaxStep; simp [hc]
      rw [hstep] at heq ⊢
      have hpc : (c :: xs).Pairwise (fun a b => a.1 ≤ b.1) := hp.of_cons
      rcases List.mem_cons.mp hy with rfl | hy'
      · have hcr : c.2 ≤ (pyMax c xs).2 := pyMax_le c xs c (List.mem_cons_self _ _)
        exact absurd heq (by intro h; rw [← h] at hcr; linarith)
      · exact ih c hpc y hy' heq
    · have hstep : pyMaxStep x c = x := by unfold pyMaxStep; simp [hc]
      rw [hstep] at heq ⊢
      have hpx : (x :: xs).Pairwise (fun a b => a.1 ≤ b.1) := by
        refine List.Pairwise.sublist ?_ hp
        exact List.Sublist.cons₂ x (List.sublist_cons_self c xs)
      rcases List.mem_cons.mp hy with rfl | hy'
      · exact ih y hpx y (List.mem_cons_self _ _) heq
      · rcases List.mem_cons.mp hy' with rfl | hy''
        · have hxr : x.2 ≤ (pyMax x xs).2 := pyMax_le x xs x (List.mem_cons_self _ _)
          have hcx : y.2 ≤ x.2 := le_of_not_lt hc
          have hxeq : x.2 = (pyMax x xs).2 := by
            refine le_antisymm hxr ?_
            rw [← heq]
            exact hcx
          have h1 := ih x hpx x (List.mem_cons_self _ _) hxeq
          have hxc : x.1 ≤ y.1 := List.rel_of_pairwise_cons hp (List.mem_cons_self y xs)
          exact le_trans h1 hxc
        · exact ih x hpx y (List.mem_cons_of_mem _ hy'') heq

theorem forall₂_mem_left {α β : Type} {R : α → β → Prop} {l1 : List α} {l2 : List β}
    (h : List.Forall₂ R l1 l2) : ∀ a ∈ l1, ∃ b ∈ l2, R a b := by
  induction h with
  | nil => intro a ha; simp at ha
  | cons hR hrest ih =>
    intro a ha
    rcases List.mem_cons.mp ha with rfl | ha'
    · exact ⟨_, List.mem_cons_self _ _, hR⟩
    · obtain ⟨b, hb, hRb⟩ := ih a ha'
      exact ⟨b, List.mem_cons_of_mem _ hb, hRb⟩

theorem forall₂_eq_map {α β : Type} {f : α → β} {l1 : List α} {l2 : List β}
    (h : List.Forall₂ (fun a b => b = f a) l1 l2) : l2 = l1.map f := by
  induction h with
  | nil => rfl
  | cons hR hrest ih => simp [hR, ih]

theorem forall₂_map_right {α β γ : Type} {R : α → γ → Prop} {f : β → γ}
    {l1 : List α} {l2 : List β}
    (h : List.Forall₂ (fun a b => R a (f b)) l1 l2) : List.Forall₂ R l1 (l2.map f) := by
  induction h with
  | nil => exact .nil
  | cons h hrest ih => exact .cons h ih

/-- A successful per-segment computation recommends a candidate whose objective
mean is maximal, taking the lowest level among maximizers when the candidate
list is ascending. -/
theorem build_segment_outputs_spec (treatment_levels candidates : List Int)
    (baseline_level : Int) (objective segment_label : String) (tm : TreatmentMap)
    (srec : SegmentRec) (chart : ChartSegment)
    (hcand : candidates.Pairwise (· ≤ ·))
    (hok : build_segment_outputs treatment_levels candidates baseline_level objective
      segment_label tm = .ok (srec, chart)) :
    srec.recommended_policy_level ∈ candidates ∧
    ∃ mrec, objScore tm objective srec.recommended_policy_level = some mrec ∧
      ∀ t ∈ candidates, ∀ mt, objScore tm objective t = some mt →
        mt ≤ mrec ∧ (mt = mrec → srec.recommended_policy_level ≤ t) := by
  simp only [build_segment_outputs] at hok
  split at hok
  · exact absurd hok (by simp)
  · rename_i scored hscored
    split at hok
    · exact absurd hok (by simp)
    · rename_i s rest
      split at hok
      · exact absurd hok (by simp)
      · rename_i rec_summary hrecsum
        split at hok
        · exact absurd hok (by simp)
        · rename_i baseline_summary hbasesum
          split at hok
          · exact absurd hok (by simp)
          · rename_i rsu rsv rinc rlat houtr
            split at hok
            · exact absurd hok (by simp)
            · rename_i bsu bsv binc blat houtb
              split at hok
              · exact absurd hok (by simp)
              · rename_i points hpoints
                simp only [Except.ok.injEq, Prod.mk.injEq] at hok
                obtain ⟨hsrec, hchart⟩ := hok
                subst hsrec
                have hkey := (mapME_ok_forall₂ hscored).imp
                  (S := fun t pair =>
                    pair = (t, (objScore tm objective t).getD 0) ∧
                    objScore tm objective t = some ((objScore tm objective t).getD 0))
                  (fun t pair hR => by
                    split at hR
                    · rename_i m hobj
                      simp only [Except.ok.injEq] at hR
                      subst hR
                      simp [hobj]
                    · exact absurd hR (by simp))
                have hmap : s :: rest =
                    candidates.map fun t => (t, (objScore tm objective t).getD 0) :=
                  forall₂_eq_map (hkey.imp fun _ _ hR => hR.1)
                have hall : ∀ t ∈ candidates,
                    objScore tm objective t = some ((objScore tm objective t).getD 0) := by
                  intro t ht
                  obtain ⟨pair, _, hp⟩ := forall₂_mem_left hkey t ht
                  exact hp.2
                have hpair_scored : (s :: rest).Pairwise (fun a b => a.1 ≤ b.1) := by
                  rw [hmap]
                  exact List.pairwise_map.mpr hcand
                obtain ⟨tr, htr_mem, htr⟩ := List.mem_map.mp (hmap ▸ pyMax_mem s rest)
                constructor
                · show (pyMax s rest).1 ∈ candidates
                  rw [← htr]
                  exact htr_mem
                · refine ⟨(pyMax s rest).2, ?_, ?_⟩
                  · show objScore tm objective (pyMax s rest).1 = some (pyMax s rest).2
                    rw [← htr]
                    exact hall tr htr_mem
                  · intro t ht mt hmt
                    have hpt : ((t, (objScore tm objective t).getD 0) : Int × ℚ) ∈ s :: rest := by
                      rw [hmap]
                      exact List.mem_map_of_mem _ ht
                    have hmtval : (objScore tm objective t).getD 0 = mt := by rw [hmt]; rfl
                    constructor
                    · have := pyMax_le s rest _ hpt
                      simpa [hmtval] using this
                    · intro hties
                      have := pyMax_first_of_sorted s rest hpair_scored _ hpt
                        (by simpa [hmtval] using hties)
                      simpa using this

/-- C6: On an artifact whose level list is ascending (as the builder emits),
a successful `recommend_policy` picks, per segment (in the partitioner's
order), a candidate level (`<=` the cap) whose objective mean is maximal, and
among equal-mean candidates the lowest level — Python's `max` keeps the first
maximizer of an ascending candidate list. -/
theorem C6_selection_max_lowest_tie (art : Artifact) (objective : String)
    (max_policy_level : Int) (segment_by method : String) (out : RecResult)
    (hsorted : art.treatment_levels.Pairwise (· ≤ ·))
    (hok : recommend_policy art objective max_policy_level segment_by method = .ok out)
    (payload : List (String × SegmentEntry))
    (hpay : art.segmentations.lookup segment_by = some payload)
    (segs : List (String × SegmentEntry))
    (hsegs : sortedSegments segment_by payload = .ok segs) :
    List.Forall₂ (fun p srec =>
      ∀ tm, p.2.lookup method = some tm →
        srec.recommended_policy_level ∈ art.treatment_levels.filter (· ≤ max_policy_level) ∧
        ∃ mrec, objScore tm objective srec.recommended_policy_level = some mrec ∧
          ∀ t ∈ art.treatment_levels.filter (· ≤ max_policy_level),
            ∀ mt, objScore tm objective t = some mt →
              mt ≤ mrec ∧ (mt = mrec → srec.recommended_policy_level ≤ t))
      segs out.segments := by
  simp only [recommend_policy] at hok
  split at hok
  · exact absurd hok (by simp)
  · split at hok
    · exact absurd hok (by simp)
    · rename_i payload' hpay'
      rw [hpay] at hpay'
      simp only [Option.some.injEq] at hpay'
      subst hpay'
      split at hok
      · exact absurd hok (by simp)
      · rename_i segs' hsegs'
        rw [hsegs] at hsegs'
        simp only [Except.ok.injEq] at hsegs'
        subst hsegs'
        split at hok
        · exact absurd hok (by simp)
        · rename_i outs houts
          simp only [Except.ok.injEq] at hok
          subst hok
          show List.Forall₂ _ segs (outs.map Prod.fst)
          refine forall₂_map_right ((mapME_ok_forall₂ houts).imp ?_)
          intro p o hf tm htm
          split at hf
          · exact absurd hf (by simp)
          · rename_i tm0 htm0
            rw [htm] at htm0
            simp only [Option.some.injEq] at htm0
            subst htm0
            exact build_segment_outputs_spec _ _ _ _ _ _ o.1 o.2
              (hsorted.filter _) (by rw [Prod.mk.eta]; exact hf)

unseal Rat.mul Rat.inv Rat.add Rat.sub in
/-- C6 witness: a two-level artifact with tied objective means; the
recommendation selects level 0, the lower of the two maximizers. -/
theorem C6_witness :
    List.Forall₂ (fun p srec =>
      ∀ tm, p.2.lookup "naive" = some tm →
        srec.recommended_policy_level ∈ artifactC6.treatment_levels.filter (· ≤ 1) ∧
        ∃ mrec, objScore tm "task_success" srec.recommended_policy_level = some mrec ∧
          ∀ t ∈ artifactC6.treatment_levels.filter (· ≤ 1),
            ∀ mt, objScore tm "task_success" t = some mt →
              mt ≤ mrec ∧ (mt = mrec → srec.recommended_policy_level ≤ t))
      [("all", [("naive", [(0, fullOutcomeMap dummyPoint), (1, fullOutcomeMap dummyPoint)])])]
      (recResultOr emptyRecResult
        (recommend_policy artifactC6 "task_success" 1 "none" "naive")).segments :=
  C6_selection_max_lowest_tie artifactC6 "task_success" 1 "none" "naive"
    (recResultOr emptyRecResult
      (recommend_policy artifactC6 "task_success" 1 "none" "naive"))
    (by decide) (by rfl)
    [("all", [("naive", [(0, fullOutcomeMap dummyPoint), (1, fullOutcomeMap dummyPoint)])])]
    (by rfl)
    [("all", [("naive", [(0, fullOutcomeMap dummyPoint), (1, fullOutcomeMap dummyPoint)])])]
    (by rfl)
